import Mathlib

/-! SystemSoftwareCA2: file-transfer client and server

A shallow embedding of `server.c` / `server.h` and `client.c` / `client.h`.

* C strings are `String`s (`strcmp (a, b) == 0` is `a = b`).
* The host identity database (`getpwnam`, `getgrouplist`, `getgrnam`) is an
  explicit value of type `IdentityDb`.
* Every system call whose result the code branches on (`malloc`, `recv`,
  `send`, `open`, `write`, `chown`, `pthread_create`) takes its result from an
  explicit environment or script, so each function is a total, executable
  function of the program state and of those results.
* `int` / `long` values are `Int`; none of the modelled counters leaves its
  machine range on the inputs considered (`active_clients` stays within
  `0 .. MAX_CLIENTS`, `total_received` is a sum of received chunk lengths).
-/

/-! ## Shared host model -/

/-- The fields of `struct passwd` that the program reads. -/
structure passwd where
  pw_uid : Nat
  pw_gid : Nat
  deriving DecidableEq, Repr

/-- The host identity database: `getpwnam` resolves a user name,
`supplementary` lists the gids of the groups that name the user as a member,
`getgrnam` resolves a group name to its `gr_gid`. -/
structure IdentityDb where
  getpwnam : String → Option passwd
  supplementary : String → List Nat
  getgrnam : String → Option Nat

/-- The array filled by `getgrouplist (user, group, groups, &ngroups)`: the
given group followed by the groups the user is a member of. -/
def getgrouplist (db : IdentityDb) (user : String) (group : Nat) : List Nat :=
  group :: db.supplementary user

namespace Server

/-! ## server.h -/

def PORT : Nat := 8080
def BUFFER_SIZE : Nat := 1024
def MAX_CLIENTS : Int := 10
def MAX_PATH_LENGTH : Nat := 256

def MANUFACTURING_DIR : String := "./Manufacturing"
def DISTRIBUTION_DIR : String := "./Distribution"

def STATUS_SUCCESS : Int := 0
def STATUS_PERMISSION_DENIED : Int := 1
def STATUS_FILE_ERROR : Int := 2
def STATUS_UNKNOWN_ERROR : Int := 3

/-! ## server.c: verify_user_access -/

/-- The membership loop of `verify_user_access`:
`for (i = 0; i < ngroups; i++) if (groups[i] == gr->gr_gid) { has_access = 1; break; }`
started from `has_access = 0`. -/
def has_access_loop (gr_gid : Nat) : List Nat → Int
  | [] => 0
  | g :: groups => if g = gr_gid then 1 else has_access_loop gr_gid groups

/-- The `required_group` selection of `verify_user_access`; `none` is the
final `else` branch (`free (groups); return 0;`). -/
def required_group (target_dir : String) : Option String :=
  if target_dir = MANUFACTURING_DIR then some "manufacturing"
  else if target_dir = DISTRIBUTION_DIR then some "distribution"
  else none

/-- Embedding of `verify_user_access`. `mallocOk` is whether the allocation
of the `groups` array succeeds. -/
def verify_user_access (db : IdentityDb) (mallocOk : Bool)
    (username target_dir : String) : Int :=
  match db.getpwnam username with
  | none => 0
  | some pw =>
    if !mallocOk then 0
    else
      let groups := getgrouplist db username pw.pw_gid
      match required_group target_dir with
      | none => 0
      | some name =>
        match db.getgrnam name with
        | none => 0
        | some gr_gid => has_access_loop gr_gid groups

/-! ## The file store -/

/-- A regular file: its bytes, owner and group. -/
structure File where
  content : List Nat
  uid : Nat
  gid : Nat
  deriving DecidableEq, Repr

/-- The file store: regular files by path. -/
abbrev FileStore := List (String × File)

/-- The file at `path`, if any. -/
def fs_lookup (fs : FileStore) (path : String) : Option File :=
  List.lookup path fs

/-- Bind `path` to `f`, replacing any earlier binding. -/
def fs_put (fs : FileStore) (path : String) (f : File) : FileStore :=
  (path, f) :: fs.filter (fun e => e.1 != path)

/-- Effect of a successful `open (path, O_WRONLY | O_CREAT | O_TRUNC, 0644)`:
an existing file is truncated and keeps its owner, a missing one is created
empty, owned by the server process (`euid`, `egid`). -/
def fs_open_trunc (fs : FileStore) (path : String) (euid egid : Nat) : FileStore :=
  match fs_lookup fs path with
  | some f => fs_put fs path { f with content := [] }
  | none => fs_put fs path { content := [], uid := euid, gid := egid }

/-- Effect of `write (file_fd, buffer, n)` on the file opened at `path`: the
bytes actually written are appended. -/
def fs_write (fs : FileStore) (path : String) (bytes : List Nat) : FileStore :=
  match fs_lookup fs path with
  | some f => fs_put fs path { f with content := f.content ++ bytes }
  | none => fs

/-- Effect of a successful `chown (path, uid, gid)`. -/
def fs_chown (fs : FileStore) (path : String) (uid gid : Nat) : FileStore :=
  match fs_lookup fs path with
  | some f => fs_put fs path { f with uid := uid, gid := gid }
  | none => fs

/-! ## server.c: set_file_ownership -/

/-- Embedding of `set_file_ownership`: the returned `Int` is the C result
(`0` or `-1`), the store is the file store afterwards. `chownOk` is whether
`chown` succeeds. -/
def set_file_ownership (db : IdentityDb) (chownOk : Bool) (fs : FileStore)
    (filepath username : String) : Int × FileStore :=
  match db.getpwnam username with
  | none => (-1, fs)
  | some pw =>
    if !chownOk then (-1, fs)
    else (0, fs_chown fs filepath pw.pw_uid pw.pw_gid)

/-! ## server.c: process_file_transfer -/

/-- What `process_file_transfer` does, in program order. -/
inductive Event where
  | dir_checked (ok : Bool)
  | access_verified (ok : Bool)
  | recv_filesize (ok : Bool)
  | lock
  | unlock
  | open_file (path : String) (ok : Bool)
  | send_ready (ok : Bool)
  | recv_data (bytes_read : Int)
  | write_data (bytes_written : Int)
  | close_file
  | set_ownership (path : String) (ok : Bool)
  deriving DecidableEq, Repr

/-- One iteration's worth of outside input to the receive loop: either
`recv` put `buffer` into the buffer (returning `buffer.length`) and the
following `write` returned `bytes_written`, or `recv` returned a negative
value. A script that has run out stands for a closed connection: `recv`
returns `0`. -/
inductive Recv where
  | data (buffer : List Nat) (bytes_written : Int)
  | error
  deriving DecidableEq, Repr

/-- Results of the system calls of one `process_file_transfer` call other
than the payload reads: `filesize` is the `long` read by
`recv (client_socket, &filesize, ...)` (`none` when that `recv` returns a
value `<= 0`); `euid`, `egid` are the ids of the server process. -/
structure TransferEnv where
  db : IdentityDb
  mallocOk : Bool
  filesize : Option Int
  openOk : Bool
  sendReadyOk : Bool
  chownOk : Bool
  euid : Nat
  egid : Nat

/-- The variables the receive loop changes. -/
structure LoopState where
  fs : FileStore
  total_received : Int
  trace : List Event
  deriving DecidableEq, Repr

/-- The `return STATUS_FILE_ERROR` exits inside the loop: `close (file_fd)`,
unlock. -/
def loop_abort (st : LoopState) (evs : List Event) : LoopState :=
  { st with trace := st.trace ++ evs ++ [Event.close_file, Event.unlock] }

/-- The loop `while (total_received < filesize) { recv; write; total_received += bytes_read; }`.
`Except.error` is a `return STATUS_FILE_ERROR` from inside the loop,
`Except.ok` is the loop condition becoming false. -/
def receive_loop (target_path : String) (filesize : Int) :
    List Recv → LoopState → Except LoopState LoopState
  | [], st =>
    if st.total_received < filesize then
      Except.error (loop_abort st [Event.recv_data 0])
    else Except.ok st
  | Recv.error :: _, st =>
    if st.total_received < filesize then
      Except.error (loop_abort st [Event.recv_data (-1)])
    else Except.ok st
  | Recv.data buffer bytes_written :: rest, st =>
    if st.total_received < filesize then
      let bytes_read : Int := buffer.length
      if bytes_read ≤ 0 then
        Except.error (loop_abort st [Event.recv_data bytes_read])
      else
        let fs1 := fs_write st.fs target_path (buffer.take bytes_written.toNat)
        if bytes_written ≠ bytes_read then
          Except.error (loop_abort { st with fs := fs1 }
            [Event.recv_data bytes_read, Event.write_data bytes_written])
        else
          receive_loop target_path filesize rest
            { fs := fs1
              total_received := st.total_received + bytes_read
              trace := st.trace ++ [Event.recv_data bytes_read, Event.write_data bytes_written] }
    else Except.ok st

/-- The `strcmp` chain that fills `full_target_dir`; `none` is the
`return STATUS_PERMISSION_DENIED` of its `else` branch. -/
def full_target_dir (target_dir : String) : Option String :=
  if target_dir = MANUFACTURING_DIR then some MANUFACTURING_DIR
  else if target_dir = DISTRIBUTION_DIR then some DISTRIBUTION_DIR
  else none

/-- The string left in `target_path` by
`snprintf (target_path, MAX_PATH_LENGTH, "%s/%s", full_target_dir, filename)`:
at most `MAX_PATH_LENGTH - 1` characters of the formatted text (one `Char`
per byte). -/
def target_path (full_dir filename : String) : String :=
  String.mk ((full_dir ++ "/" ++ filename).data.take (MAX_PATH_LENGTH - 1))

/-- Result of one `process_file_transfer` call: the returned status, the file
store afterwards, the final `total_received`, the 4-byte integers delivered
to the client, and the events in program order. -/
structure Outcome where
  status : Int
  fs : FileStore
  total_received : Int
  to_client : List Int
  trace : List Event
  deriving DecidableEq, Repr

/-- Embedding of `process_file_transfer`. -/
def process_file_transfer (env : TransferEnv) (fs : FileStore) (script : List Recv)
    (username target_dir filename : String) : Outcome :=
  match full_target_dir target_dir with
  | none =>
    { status := STATUS_PERMISSION_DENIED, fs := fs, total_received := 0, to_client := []
      trace := [Event.dir_checked false] }
  | some full_dir =>
    if verify_user_access env.db env.mallocOk username target_dir = 0 then
      { status := STATUS_PERMISSION_DENIED, fs := fs, total_received := 0, to_client := []
        trace := [Event.dir_checked true, Event.access_verified false] }
    else
      let path := target_path full_dir filename
      let t1 := [Event.dir_checked true, Event.access_verified true]
      match env.filesize with
      | none =>
        { status := STATUS_UNKNOWN_ERROR, fs := fs, total_received := 0, to_client := []
          trace := t1 ++ [Event.recv_filesize false] }
      | some filesize =>
        let t2 := t1 ++ [Event.recv_filesize true, Event.lock]
        if !env.openOk then
          { status := STATUS_FILE_ERROR, fs := fs, total_received := 0, to_client := []
            trace := t2 ++ [Event.open_file path false, Event.unlock] }
        else
          let fs1 := fs_open_trunc fs path env.euid env.egid
          let t3 := t2 ++ [Event.open_file path true]
          if !env.sendReadyOk then
            { status := STATUS_UNKNOWN_ERROR, fs := fs1, total_received := 0, to_client := []
              trace := t3 ++ [Event.send_ready false, Event.close_file, Event.unlock] }
          else
            match receive_loop path filesize script
                { fs := fs1, total_received := 0, trace := t3 ++ [Event.send_ready true] } with
            | Except.error st =>
              { status := STATUS_FILE_ERROR, fs := st.fs, total_received := st.total_received
                to_client := [1], trace := st.trace }
            | Except.ok st =>
              let r := set_file_ownership env.db env.chownOk st.fs path username
              if r.1 ≠ 0 then
                { status := STATUS_FILE_ERROR, fs := r.2, total_received := st.total_received
                  to_client := [1]
                  trace := st.trace ++ [Event.close_file, Event.set_ownership path false,
                    Event.unlock] }
              else
                { status := STATUS_SUCCESS, fs := r.2, total_received := st.total_received
                  to_client := [1]
                  trace := st.trace ++ [Event.close_file, Event.set_ownership path true,
                    Event.unlock] }

/-- The events of a run of complete iterations of the receive loop, given the
byte count of each: a read of `n` bytes, then a write of `n` bytes. -/
def iterations : List Int → List Event
  | [] => []
  | n :: ns => Event.recv_data n :: Event.write_data n :: iterations ns

/-! ## server.c: handle_client -/

/-- Outside input of one session handler: the C strings left in `username`,
`target_dir` and `filename` by the three `recv` calls (`none` when the `recv`
returns a value `<= 0`), the inputs of `process_file_transfer`, and whether
the final `send` of the status code succeeds. -/
structure SessionEnv where
  username : Option String
  target_dir : Option String
  filename : Option String
  transfer : TransferEnv
  script : List Recv
  sendStatusOk : Bool

/-- What one `handle_client` call leaves behind: the shared counter, the file
store, the 4-byte integers delivered to the client before the socket is
closed, and the status returned by `process_file_transfer` when it was
called. -/
structure HandlerResult where
  active_clients : Int
  fs : FileStore
  to_client : List Int
  status_code : Option Int
  deriving DecidableEq, Repr

/-- The part of `handle_client` before the `cleanup:` label. `none` is a
`goto cleanup` taken before `process_file_transfer` is called. -/
def handle_client_body (fs : FileStore) (env : SessionEnv) : Option Outcome :=
  match env.username with
  | none => none
  | some username =>
    match env.target_dir with
    | none => none
    | some target_dir =>
      match env.filename with
      | none => none
      | some filename =>
        some (process_file_transfer env.transfer fs env.script username target_dir filename)

/-- Embedding of `handle_client`: the body, then the `cleanup:` block
(`close`, `free`, `active_clients--`). -/
def handle_client (active_clients : Int) (fs : FileStore) (env : SessionEnv) :
    HandlerResult :=
  match handle_client_body fs env with
  | none =>
    { active_clients := active_clients - 1, fs := fs, to_client := [], status_code := none }
  | some out =>
    { active_clients := active_clients - 1
      fs := out.fs
      to_client := out.to_client ++ (if env.sendStatusOk then [out.status] else [])
      status_code := some out.status }

/-! ## server.c: main (the accept loop) -/

/-- The fields of `client_t` that the program uses after creating it. -/
structure client_t where
  client_socket : Int
  client_id : Int
  deriving DecidableEq, Repr

/-- The server process between two atomic steps: the global `active_clients`,
the handler threads created and not yet exited, every `client_t` ever handed
to a handler thread (oldest first), and the file store. -/
structure ServerState where
  active_clients : Int
  in_flight : List client_t
  admitted : List client_t
  fs : FileStore
  deriving DecidableEq, Repr

/-- How one iteration of the accept loop ends. -/
inductive Accepted where
  | accept_failed
  | rejected (closed_socket : Int)
  | malloc_failed (closed_socket : Int)
  | create_failed (closed_socket : Int)
  | spawned (client : client_t)
  deriving DecidableEq, Repr

/-- One iteration of the `while (1)` loop of `main`. `client_socket` is the
result of `accept`, `mallocOk` and `pthreadOk` are whether `malloc` and
`pthread_create` succeed. -/
def main_iteration (s : ServerState) (client_socket : Int) (mallocOk pthreadOk : Bool) :
    ServerState × Accepted :=
  if client_socket < 0 then (s, Accepted.accept_failed)
  else if s.active_clients ≥ MAX_CLIENTS then (s, Accepted.rejected client_socket)
  else if !mallocOk then (s, Accepted.malloc_failed client_socket)
  else
    let client : client_t := { client_socket := client_socket, client_id := s.active_clients }
    let s1 := { s with active_clients := s.active_clients + 1 }
    if !pthreadOk then
      ({ s1 with active_clients := s1.active_clients - 1 }, Accepted.create_failed client_socket)
    else
      ({ s1 with in_flight := s1.in_flight ++ [client], admitted := s1.admitted ++ [client] },
        Accepted.spawned client)

/-- The state at program start: `int active_clients = 0;`, no handler. -/
def initial (fs : FileStore) : ServerState :=
  { active_clients := 0, in_flight := [], admitted := [], fs := fs }

/-- An atomic step of the server process: one iteration of the accept loop,
or the handler thread at position `i` of `in_flight` running to its exit. -/
inductive Step where
  | accept (client_socket : Int) (mallocOk pthreadOk : Bool)
  | exit (i : Nat) (env : SessionEnv)

/-- The state after one step; an `exit` of a thread that does not exist
changes nothing. -/
def step (s : ServerState) : Step → ServerState
  | Step.accept client_socket mallocOk pthreadOk =>
    (main_iteration s client_socket mallocOk pthreadOk).1
  | Step.exit i env =>
    if i < s.in_flight.length then
      let r := handle_client s.active_clients s.fs env
      { s with active_clients := r.active_clients, in_flight := s.in_flight.eraseIdx i,
               fs := r.fs }
    else s

/-- The state after a sequence of steps. -/
def run (s : ServerState) (steps : List Step) : ServerState :=
  steps.foldl step s

end Server

namespace Client

/-! ## client.h -/

def BUFFER_SIZE : Nat := 1024
def MAX_PATH_LENGTH : Nat := 256

def MANUFACTURING_DIR : String := "Manufacturing"
def DISTRIBUTION_DIR : String := "Distribution"

def STATUS_SUCCESS : Int := 0
def STATUS_PERMISSION_DENIED : Int := 1
def STATUS_FILE_ERROR : Int := 2
def STATUS_UNKNOWN_ERROR : Int := 3

/-! ## client.c -/

/-- The destination check of `main`: `false` is the branch that prints the
error and returns `EXIT_FAILURE`. -/
def valid_target_dir (target_dir : String) : Bool :=
  !(target_dir != MANUFACTURING_DIR && target_dir != DISTRIBUTION_DIR)

/-- The C library's `strrchr`: the suffix starting at the last occurrence of
`c`, if there is one. -/
def strrchr : List Char → Char → Option (List Char)
  | [], _ => none
  | x :: xs, c =>
    match strrchr xs c with
    | some r => some r
    | none => if x = c then some (x :: xs) else none

/-- The `filename` computed by `send_file` from `filepath`. -/
def filename_of (filepath : String) : String :=
  match strrchr filepath.data '/' with
  | some last_slash => String.mk ((last_slash.drop 1).take (MAX_PATH_LENGTH - 1))
  | none => String.mk (filepath.data.take (MAX_PATH_LENGTH - 1))

/-- Outside input of one `send_file` call: the result of
`get_current_username`, whether each `send` succeeds, the result of
`get_file_size`, whether `open` succeeds, and the successive chunks returned
by `read`, each with whether its `send` succeeds. -/
structure SendEnv where
  username : Option String
  sendUsernameOk : Bool
  sendTargetDirOk : Bool
  sendFilenameOk : Bool
  filesize : Int
  sendFilesizeOk : Bool
  openOk : Bool
  chunks : List (List Nat × Bool)

/-- The loop `while ((bytes_read = read (...)) > 0) { send; }`: `false` is the
`return STATUS_UNKNOWN_ERROR` after a failed `send`. -/
def send_loop : List (List Nat × Bool) → Bool
  | [] => true
  | (buffer, sendOk) :: rest =>
    if buffer.length = 0 then true
    else if !sendOk then false
    else send_loop rest

/-- Embedding of `send_file`. `from_server` is the sequence of 4-byte integers
that arrive from the server before it closes the connection; a `recv` on the
exhausted sequence returns a value `<= 0`. -/
def send_file (env : SendEnv) (from_server : List Int) : Int :=
  match env.username with
  | none => STATUS_UNKNOWN_ERROR
  | some _ =>
    if !env.sendUsernameOk then STATUS_UNKNOWN_ERROR
    else if !env.sendTargetDirOk then STATUS_UNKNOWN_ERROR
    else if !env.sendFilenameOk then STATUS_UNKNOWN_ERROR
    else if env.filesize < 0 then STATUS_FILE_ERROR
    else if !env.sendFilesizeOk then STATUS_UNKNOWN_ERROR
    else
      match from_server with
      | [] => STATUS_UNKNOWN_ERROR
      | _ready :: rest =>
        if !env.openOk then STATUS_FILE_ERROR
        else if !send_loop env.chunks then STATUS_UNKNOWN_ERROR
        else
          match rest with
          | [] => STATUS_UNKNOWN_ERROR
          | status_code :: _ => status_code

/-- What the server's session handler receives from a `send_file` call in
which no `send` fails, every message arriving as one unit: the four header
fields and the file's chunks, each written to disk in full. -/
def server_view (env : SendEnv) (filepath target_dir : String)
    (transfer : Server.TransferEnv) : Server.SessionEnv where
  username := env.username
  target_dir := some target_dir
  filename := some (filename_of filepath)
  transfer := { transfer with filesize := some env.filesize }
  script := env.chunks.map (fun c => Server.Recv.data c.1 c.1.length)
  sendStatusOk := true

end Client

/-! ## Concrete inputs -/

/-- A host with user `alice` (uid 1001, primary group 1001, member of group
2001 `manufacturing`) and user `bob` (uid 1002, primary group 1002, no other
group); group `distribution` has gid 2002. -/
def demoDb : IdentityDb where
  getpwnam := fun u =>
    if u = "alice" then some { pw_uid := 1001, pw_gid := 1001 }
    else if u = "bob" then some { pw_uid := 1002, pw_gid := 1002 }
    else none
  supplementary := fun u => if u = "alice" then [2001] else []
  getgrnam := fun g =>
    if g = "manufacturing" then some 2001
    else if g = "distribution" then some 2002
    else none

/-- An environment in which every system call succeeds and the client
declares `n` bytes. -/
def demoEnv (n : Int) : Server.TransferEnv where
  db := demoDb
  mallocOk := true
  filesize := some n
  openOk := true
  sendReadyOk := true
  chownOk := true
  euid := 0
  egid := 0

/-- A client run as `bob` in which every local call and every `send`
succeeds: a 12-byte file read in one chunk. -/
def demoSend : Client.SendEnv where
  username := some "bob"
  sendUsernameOk := true
  sendTargetDirOk := true
  sendFilenameOk := true
  filesize := 12
  sendFilesizeOk := true
  openOk := true
  chunks := [([104, 101, 108, 108, 111, 32, 119, 111, 114, 108, 100, 10], true)]

/-- A session whose client disconnects before sending its user name. -/
def demoDisconnect : Server.SessionEnv where
  username := none
  target_dir := none
  filename := none
  transfer := demoEnv 0
  script := []
  sendStatusOk := true

/-- Ten sessions in flight. -/
def demoFull : Server.ServerState where
  active_clients := 10
  in_flight := (List.range 10).map (fun i => { client_socket := 4 + i, client_id := i })
  admitted := (List.range 10).map (fun i => { client_socket := 4 + i, client_id := i })
  fs := []

theorem Server.has_access_loop_eq_one_iff (gid : Nat) (groups : List Nat) :
    Server.has_access_loop gid groups = 1 ↔ gid ∈ groups := by
  induction groups with
  | nil => simp [Server.has_access_loop]
  | cons g gs ih =>
    by_cases h : g = gid
    · simp [Server.has_access_loop, h]
    · have h2 : ¬ gid = g := fun e => h e.symm
      simp [Server.has_access_loop, h, h2, ih]

theorem Server.has_access_loop_zero_or_one (gid : Nat) (groups : List Nat) :
    Server.has_access_loop gid groups = 0 ∨ Server.has_access_loop gid groups = 1 := by
  induction groups with
  | nil => simp [Server.has_access_loop]
  | cons g gs ih =>
    by_cases h : g = gid <;> simp [Server.has_access_loop, h, ih]

/-- C1: when the `groups` allocation succeeds, `verify_user_access` returns a
non-zero value exactly when the user name resolves, the destination is one of
the two destination literals, that destination's required group name
("manufacturing" for `MANUFACTURING_DIR`, "distribution" for
`DISTRIBUTION_DIR`) resolves to a gid, and that gid occurs in the user's group
list; in every other case it returns 0. -/
theorem Server.verify_user_access_authorized_iff (db : IdentityDb) (mallocOk : Bool)
    (username target_dir : String) (hm : mallocOk = true) :
    (Server.verify_user_access db mallocOk username target_dir ≠ 0 ↔
      ∃ pw name gid, db.getpwnam username = some pw ∧
        ((target_dir = Server.MANUFACTURING_DIR ∧ name = "manufacturing") ∨
          (target_dir = Server.DISTRIBUTION_DIR ∧ name = "distribution")) ∧
        db.getgrnam name = some gid ∧ gid ∈ getgrouplist db username pw.pw_gid) ∧
    ((¬ ∃ pw name gid, db.getpwnam username = some pw ∧
        ((target_dir = Server.MANUFACTURING_DIR ∧ name = "manufacturing") ∨
          (target_dir = Server.DISTRIBUTION_DIR ∧ name = "distribution")) ∧
        db.getgrnam name = some gid ∧ gid ∈ getgrouplist db username pw.pw_gid) →
      Server.verify_user_access db mallocOk username target_dir = 0) := by
  subst hm
  have key : Server.verify_user_access db true username target_dir ≠ 0 ↔
      ∃ pw name gid, db.getpwnam username = some pw ∧
        ((target_dir = Server.MANUFACTURING_DIR ∧ name = "manufacturing") ∨
          (target_dir = Server.DISTRIBUTION_DIR ∧ name = "distribution")) ∧
        db.getgrnam name = some gid ∧ gid ∈ getgrouplist db username pw.pw_gid := by
    constructor
    · intro h
      unfold Server.verify_user_access at h
      cases hpw : db.getpwnam username with
      | none => simp [hpw] at h
      | some pw =>
        simp only [hpw, Bool.not_true, Bool.false_eq_true, if_false] at h
        cases hrg : Server.required_group target_dir with
        | none => simp [hrg] at h
        | some name =>
          simp only [hrg] at h
          cases hgr : db.getgrnam name with
          | none => simp [hgr] at h
          | some gid =>
            simp only [hgr] at h
            have hmem : gid ∈ getgrouplist db username pw.pw_gid := by
              rcases Server.has_access_loop_zero_or_one gid
                (getgrouplist db username pw.pw_gid) with h0 | h1
              · exact absurd h0 h
              · exact (Server.has_access_loop_eq_one_iff _ _).1 h1
            refine ⟨pw, name, gid, rfl, ?_, hgr, hmem⟩
            unfold Server.required_group at hrg
            by_cases hM : target_dir = Server.MANUFACTURING_DIR
            · left
              simp only [hM, if_true, Option.some.injEq] at hrg
              exact ⟨hM, hrg.symm⟩
            · right
              by_cases hD : target_dir = Server.DISTRIBUTION_DIR
              · rw [if_neg hM, if_pos hD] at hrg
                exact ⟨hD, (Option.some.inj hrg).symm⟩
              · simp [hM, hD] at hrg
    · rintro ⟨pw, name, gid, hpw, hdir, hgr, hmem⟩
      have hrg : Server.required_group target_dir = some name := by
        unfold Server.required_group
        rcases hdir with ⟨hM, hn⟩ | ⟨hD, hn⟩
        · simp [hM, hn]
        · subst hD
          subst hn
          have : ¬ Server.DISTRIBUTION_DIR = Server.MANUFACTURING_DIR := by decide
          simp [this]
      have h1 := (Server.has_access_loop_eq_one_iff _ _).2 hmem
      unfold Server.verify_user_access
      simp [hpw, hrg, hgr, h1]
  refine ⟨key, fun hn => ?_⟩
  by_contra h0
  exact hn (key.1 h0)

/-- C1 witness: on `demoDb`, `alice` (member of `manufacturing`) is authorized
for `./Manufacturing`. -/
theorem Server.verify_user_access_authorized_iff_witness :
    Server.verify_user_access demoDb true "alice" Server.MANUFACTURING_DIR ≠ 0 :=
  (Server.verify_user_access_authorized_iff demoDb true "alice" Server.MANUFACTURING_DIR
      rfl).1.2
    ⟨{ pw_uid := 1001, pw_gid := 1001 }, "manufacturing", 2001, by decide,
      Or.inl ⟨rfl, rfl⟩, by decide, by decide⟩

/-! ### process_file_transfer: the destination literals -/

theorem Server.full_target_dir_client_literal (target_dir : String)
    (h : Client.valid_target_dir target_dir = true) :
    Server.full_target_dir target_dir = none := by
  have hcases : target_dir = Client.MANUFACTURING_DIR ∨ target_dir = Client.DISTRIBUTION_DIR := by
    unfold Client.valid_target_dir at h
    by_cases h1 : target_dir = Client.MANUFACTURING_DIR
    · exact Or.inl h1
    · by_cases h2 : target_dir = Client.DISTRIBUTION_DIR
      · exact Or.inr h2
      · simp [h1, h2] at h
  rcases hcases with h1 | h1 <;> subst h1 <;> decide

theorem Server.process_file_transfer_client_literal (env : Server.TransferEnv) (fs : FileStore)
    (script : List Server.Recv) (username target_dir filename : String)
    (h : Client.valid_target_dir target_dir = true) :
    (Server.process_file_transfer env fs script username target_dir filename).status
      = Server.STATUS_PERMISSION_DENIED := by
  unfold Server.process_file_transfer
  rw [Server.full_target_dir_client_literal target_dir h]

/-- C2: the client accepts the destination `Manufacturing` and `alice` is a
member of the `manufacturing` group, yet for `report.txt` (12 bytes, every
system call succeeding) `process_file_transfer` returns PermissionDenied (1),
not Success (0), and stores nothing: the server compares the destination
against `./Manufacturing`. -/
theorem Server.process_file_transfer_rejects_client_destination :
    Client.valid_target_dir Client.MANUFACTURING_DIR = true ∧
    Server.verify_user_access demoDb true "alice" Server.MANUFACTURING_DIR = 1 ∧
    (Server.process_file_transfer (demoEnv 12) []
        [Server.Recv.data [104, 101, 108, 108, 111, 32, 119, 111, 114, 108, 100, 10] 12]
        "alice" Client.MANUFACTURING_DIR "report.txt").status
      = Server.STATUS_PERMISSION_DENIED ∧
    (Server.process_file_transfer (demoEnv 12) []
        [Server.Recv.data [104, 101, 108, 108, 111, 32, 119, 111, 114, 108, 100, 10] 12]
        "alice" Client.MANUFACTURING_DIR "report.txt").fs = [] := by
  decide

/-- C3: with declared length 12 and a single read that returns 20 bytes
(between 1 and `BUFFER_SIZE`), `process_file_transfer` returns Success (0)
with `total_received = 20`, and the stored file holds 20 bytes, not 12. -/
theorem Server.process_file_transfer_overshoots_declared_length :
    (Server.process_file_transfer (demoEnv 12) []
        [Server.Recv.data (List.replicate 20 7) 20]
        "alice" Server.MANUFACTURING_DIR "report.txt").status = Server.STATUS_SUCCESS ∧
    (Server.process_file_transfer (demoEnv 12) []
        [Server.Recv.data (List.replicate 20 7) 20]
        "alice" Server.MANUFACTURING_DIR "report.txt").total_received = 20 ∧
    (fs_lookup (Server.process_file_transfer (demoEnv 12) []
        [Server.Recv.data (List.replicate 20 7) 20]
        "alice" Server.MANUFACTURING_DIR "report.txt").fs "./Manufacturing/report.txt").map
      (fun f => f.content.length) = some 20 := by
  decide

/-! ### process_file_transfer: PermissionDenied -/

/-- C5: whenever `process_file_transfer` returns PermissionDenied (1), the
destination was not one of the two literals or `verify_user_access` returned
0, the file store is exactly the one it started from, nothing was sent to the
client, and no open, write or ownership event occurred. -/
theorem Server.permission_denied_leaves_store_unchanged (env : Server.TransferEnv)
    (fs : FileStore) (script : List Server.Recv) (username target_dir filename : String)
    (h : (Server.process_file_transfer env fs script username target_dir filename).status
      = Server.STATUS_PERMISSION_DENIED) :
    (Server.full_target_dir target_dir = none ∨
      Server.verify_user_access env.db env.mallocOk username target_dir = 0) ∧
    (Server.process_file_transfer env fs script username target_dir filename).fs = fs ∧
    (Server.process_file_transfer env fs script username target_dir filename).to_client = [] ∧
    (∀ e ∈ (Server.process_file_transfer env fs script username target_dir filename).trace,
      (∀ p ok, e ≠ Server.Event.open_file p ok) ∧ (∀ n, e ≠ Server.Event.write_data n) ∧
      (∀ p ok, e ≠ Server.Event.set_ownership p ok)) := by
  unfold Server.process_file_transfer at h ⊢
  cases hd : Server.full_target_dir target_dir with
  | none => simp [hd]
  | some full_dir =>
    simp only [hd] at h ⊢
    by_cases hv : Server.verify_user_access env.db env.mallocOk username target_dir = 0
    · simp [hv]
    · exfalso
      simp only [hv, if_false] at h
      cases hf : env.filesize with
      | none => simp [hf, Server.STATUS_UNKNOWN_ERROR, Server.STATUS_PERMISSION_DENIED] at h
      | some filesize =>
        simp only [hf] at h
        cases ho : env.openOk with
        | false => simp [ho, Server.STATUS_FILE_ERROR, Server.STATUS_PERMISSION_DENIED] at h
        | true =>
          simp only [ho, Bool.not_true, Bool.false_eq_true, if_false] at h
          cases hr : env.sendReadyOk with
          | false =>
            simp [hr, Server.STATUS_UNKNOWN_ERROR, Server.STATUS_PERMISSION_DENIED] at h
          | true =>
            simp only [hr, Bool.not_true, Bool.false_eq_true, if_false] at h
            revert h
            split
            · simp [Server.STATUS_FILE_ERROR, Server.STATUS_PERMISSION_DENIED]
            · split <;>
                simp [Server.STATUS_FILE_ERROR, Server.STATUS_PERMISSION_DENIED,
                  Server.STATUS_SUCCESS]

/-- C5 witness: `bob` is not in `distribution`; his transfer to
`./Distribution` is denied and the store keeps its single earlier file. -/
theorem Server.permission_denied_leaves_store_unchanged_witness :
    (Server.process_file_transfer (demoEnv 12) [("./Distribution/old.txt", ⟨[1, 2], 7, 7⟩)]
        [Server.Recv.data [104, 101, 108, 108, 111, 32, 119, 111, 114, 108, 100, 10] 12]
        "bob" Server.DISTRIBUTION_DIR "report.txt").fs
      = [("./Distribution/old.txt", ⟨[1, 2], 7, 7⟩)] :=
  (Server.permission_denied_leaves_store_unchanged (demoEnv 12)
    [("./Distribution/old.txt", ⟨[1, 2], 7, 7⟩)]
    [Server.Recv.data [104, 101, 108, 108, 111, 32, 119, 111, 114, 108, 100, 10] 12]
    "bob" Server.DISTRIBUTION_DIR "report.txt" (by decide)).2.1

/-! ### The file store -/

theorem Server.fs_lookup_put (fs : FileStore) (path : String) (f : File) :
    fs_lookup (fs_put fs path f) path = some f := by
  simp [fs_lookup, fs_put, List.lookup_cons]

theorem Server.fs_lookup_open_trunc (fs : FileStore) (path : String) (euid egid : Nat) :
    ∃ f, fs_lookup (fs_open_trunc fs path euid egid) path = some f ∧ f.content = [] := by
  unfold fs_open_trunc
  cases h : fs_lookup fs path with
  | none => exact ⟨_, fs_lookup_put _ _ _, rfl⟩
  | some f => exact ⟨_, fs_lookup_put _ _ _, rfl⟩

theorem Server.fs_lookup_write (fs : FileStore) (path : String) (bytes : List Nat) (f : File)
    (h : fs_lookup fs path = some f) :
    fs_lookup (fs_write fs path bytes) path = some { f with content := f.content ++ bytes } := by
  unfold fs_write
  rw [h]
  exact fs_lookup_put _ _ _

/-! ### process_file_transfer: the sender disconnects early -/

theorem Server.receive_loop_early_close (path : String) (N : Int) (chunks : List (List Nat))
    (tail : List Server.Recv)
    (hne : ∀ c ∈ chunks, c ≠ [])
    (htail : tail = [] ∨ (∃ rest, tail = Server.Recv.error :: rest) ∨
      (∃ w rest, tail = Server.Recv.data [] w :: rest)) :
    ∀ (st : Server.LoopState) (f : File),
      st.total_received + (chunks.flatten.length : Int) < N →
      fs_lookup st.fs path = some f →
      ∃ st1, Server.receive_loop path N
            (chunks.map (fun c => Server.Recv.data c c.length) ++ tail) st = Except.error st1 ∧
        fs_lookup st1.fs path = some { f with content := f.content ++ chunks.flatten } ∧
        st1.total_received = st.total_received + (chunks.flatten.length : Int) := by
  induction chunks with
  | nil =>
    intro st f hk hf
    simp only [List.flatten_nil, List.length_nil, Nat.cast_zero, add_zero] at hk
    simp only [List.map_nil, List.nil_append, List.flatten_nil, List.append_nil,
      List.length_nil, Nat.cast_zero, add_zero]
    rcases htail with h | ⟨rest, h⟩ | ⟨w, rest, h⟩
    · subst h
      exact ⟨Server.loop_abort st [Server.Event.recv_data 0],
        by simp [Server.receive_loop, hk], by simp [Server.loop_abort, hf],
        by simp [Server.loop_abort]⟩
    · subst h
      exact ⟨Server.loop_abort st [Server.Event.recv_data (-1)],
        by simp [Server.receive_loop, hk], by simp [Server.loop_abort, hf],
        by simp [Server.loop_abort]⟩
    · subst h
      exact ⟨Server.loop_abort st [Server.Event.recv_data 0],
        by simp [Server.receive_loop, hk], by simp [Server.loop_abort, hf],
        by simp [Server.loop_abort]⟩
  | cons c cs ih =>
    intro st f hk hf
    have hc : c ≠ [] := hne c (List.mem_cons_self _ _)
    have hpos : 0 < c.length := List.length_pos.2 hc
    have hlen : (c.length : Int) + (cs.flatten.length : Int) = ((c :: cs).flatten.length : Int) := by
      simp [List.flatten_cons, List.length_append]
    have hlt : st.total_received < N := by
      have : (0 : Int) ≤ ((c :: cs).flatten.length : Int) := Int.natCast_nonneg _
      omega
    have hnot : ¬ ((c.length : Int) ≤ 0) := by omega
    have htake : c.take ((c.length : Int)).toNat = c := by simp
    obtain ⟨st1, h1, h2, h3⟩ := ih (fun d hd => hne d (List.mem_cons_of_mem _ hd))
      { fs := fs_write st.fs path c
        total_received := st.total_received + (c.length : Int)
        trace := st.trace ++ [Server.Event.recv_data (c.length : Int),
          Server.Event.write_data (c.length : Int)] }
      { f with content := f.content ++ c }
      (by simp only; omega)
      (fs_lookup_write _ _ _ _ hf)
    refine ⟨st1, ?_, ?_, ?_⟩
    · simp only [List.map_cons, List.cons_append, Server.receive_loop, hlt, if_true, hnot,
        if_false, htake, ne_eq, not_true_eq_false]
      exact h1
    · rw [h2]
      simp [List.flatten_cons, List.append_assoc]
    · rw [h3]
      simp only
      omega

theorem Server.verify_user_access_ne_zero_dir (db : IdentityDb) (mallocOk : Bool)
    (username target_dir : String)
    (h : Server.verify_user_access db mallocOk username target_dir ≠ 0) :
    Server.full_target_dir target_dir = some target_dir := by
  unfold Server.full_target_dir
  by_cases hM : target_dir = Server.MANUFACTURING_DIR
  · simp [hM]
  · by_cases hD : target_dir = Server.DISTRIBUTION_DIR
    · simp [hD]
      decide
    · exfalso
      apply h
      unfold Server.verify_user_access Server.required_group
      cases db.getpwnam username with
      | none => rfl
      | some pw => cases mallocOk <;> simp [hM, hD]

/-- C6: for an authorized session with declared length `N` whose file opens
and whose ready signal is sent, if the connection delivers the non-empty
chunks `chunks` (`k` bytes in all, `k < N`, each written in full) and the next
read returns zero (closed connection or empty read) or a negative value, then
`process_file_transfer` returns FileError (2), `total_received = k`, and the
stored file holds exactly the `k` bytes received. -/
theorem Server.early_disconnect_is_file_error (env : Server.TransferEnv) (fs : FileStore)
    (chunks : List (List Nat)) (tail : List Server.Recv)
    (username target_dir filename : String) (N : Int)
    (hauth : Server.verify_user_access env.db env.mallocOk username target_dir ≠ 0)
    (hN : env.filesize = some N) (hopen : env.openOk = true)
    (hready : env.sendReadyOk = true)
    (hne : ∀ c ∈ chunks, c ≠ [])
    (hk : (chunks.flatten.length : Int) < N)
    (htail : tail = [] ∨ (∃ rest, tail = Server.Recv.error :: rest) ∨
      (∃ w rest, tail = Server.Recv.data [] w :: rest)) :
    (Server.process_file_transfer env fs
        (chunks.map (fun c => Server.Recv.data c c.length) ++ tail)
        username target_dir filename).status = Server.STATUS_FILE_ERROR ∧
    (Server.process_file_transfer env fs
        (chunks.map (fun c => Server.Recv.data c c.length) ++ tail)
        username target_dir filename).total_received = (chunks.flatten.length : Int) ∧
    (Server.fs_lookup (Server.process_file_transfer env fs
        (chunks.map (fun c => Server.Recv.data c c.length) ++ tail)
        username target_dir filename).fs (Server.target_path target_dir filename)).map
      (fun f => f.content) = some chunks.flatten := by
  have hd := Server.verify_user_access_ne_zero_dir _ _ _ _ hauth
  obtain ⟨f0, hf0, hc0⟩ := Server.fs_lookup_open_trunc fs
    (Server.target_path target_dir filename) env.euid env.egid
  obtain ⟨st1, h1, h2, h3⟩ := Server.receive_loop_early_close
    (Server.target_path target_dir filename) N chunks tail hne htail
    { fs := Server.fs_open_trunc fs (Server.target_path target_dir filename) env.euid env.egid
      total_received := 0
      trace := [Server.Event.dir_checked true, Server.Event.access_verified true] ++
        [Server.Event.recv_filesize true, Server.Event.lock] ++
        [Server.Event.open_file (Server.target_path target_dir filename) true] ++
        [Server.Event.send_ready true] }
    f0 (by simpa using hk) hf0
  unfold Server.process_file_transfer
  simp only [hd, hauth, if_false, hN, hopen, hready, Bool.not_true, Bool.false_eq_true, h1]
  refine ⟨trivial, ?_, ?_⟩
  · rw [h3]
    simp
  · rw [h2]
    simp [hc0]

set_option maxRecDepth 20000 in
/-- C6 witness: `alice` declares 1000 bytes to `./Manufacturing`, 500 bytes
arrive and the connection closes: status 2 and a 500-byte file. -/
theorem Server.early_disconnect_is_file_error_witness :
    (Server.process_file_transfer (demoEnv 1000) []
        ([List.replicate 500 0].map (fun c => Server.Recv.data c c.length) ++ [])
        "alice" Server.MANUFACTURING_DIR "report.txt").status = 2 ∧
    (Server.process_file_transfer (demoEnv 1000) []
        ([List.replicate 500 0].map (fun c => Server.Recv.data c c.length) ++ [])
        "alice" Server.MANUFACTURING_DIR "report.txt").total_received = 500 ∧
    (Server.fs_lookup (Server.process_file_transfer (demoEnv 1000) []
        ([List.replicate 500 0].map (fun c => Server.Recv.data c c.length) ++ [])
        "alice" Server.MANUFACTURING_DIR "report.txt").fs "./Manufacturing/report.txt").map
      (fun f => f.content.length) = some 500 := by
  have h := Server.early_disconnect_is_file_error (demoEnv 1000) [] [List.replicate 500 0] []
    "alice" Server.MANUFACTURING_DIR "report.txt" 1000 (by decide) rfl rfl rfl
    (by simp) (by simp [List.length_replicate]) (Or.inl rfl)
  refine ⟨h.1, ?_, ?_⟩
  · rw [h.2.1]
    simp [List.length_replicate]
  · have h3 := h.2.2
    have hp : Server.target_path Server.MANUFACTURING_DIR "report.txt"
        = "./Manufacturing/report.txt" := by decide
    rw [hp] at h3
    rw [Option.map_eq_some'] at h3 ⊢
    obtain ⟨f, hf, hc⟩ := h3
    exact ⟨f, hf, by rw [hc]; simp [List.length_replicate]⟩

/-! ### The status channel: handle_client and send_file -/

theorem Client.send_file_single_message (env : Client.SendEnv) (s : Int) :
    Client.send_file env [s] = Client.STATUS_UNKNOWN_ERROR ∨
    Client.send_file env [s] = Client.STATUS_FILE_ERROR := by
  unfold Client.send_file
  cases env.username with
  | none => exact Or.inl rfl
  | some u =>
    simp only
    split
    · exact Or.inl rfl
    · split
      · exact Or.inl rfl
      · split
        · exact Or.inl rfl
        · split
          · exact Or.inr rfl
          · split
            · exact Or.inl rfl
            · split
              · exact Or.inr rfl
              · split <;> exact Or.inl rfl

/-- C4: `bob` (not in `distribution`) sends a 12-byte file to
`./Distribution` with no transport failure: `process_file_transfer` returns
PermissionDenied (1) and `handle_client` delivers exactly that one status
code, but `send_file` consumes it as the ready signal and returns
UnknownError (3), not 1. -/
theorem Client.send_file_loses_early_status :
    (Server.handle_client 1 []
        (Client.server_view demoSend "/home/bob/report.txt" "./Distribution"
          (demoEnv 12))).status_code = some Server.STATUS_PERMISSION_DENIED ∧
    (Server.handle_client 1 []
        (Client.server_view demoSend "/home/bob/report.txt" "./Distribution"
          (demoEnv 12))).to_client = [1] ∧
    Client.send_file demoSend
        (Server.handle_client 1 []
          (Client.server_view demoSend "/home/bob/report.txt" "./Distribution"
            (demoEnv 12))).to_client = Client.STATUS_UNKNOWN_ERROR := by
  decide

/-! ### The accept loop -/

/-- C7: in one iteration of the accept loop, when `active_clients >= MAX_CLIENTS`
the state is left exactly as it was, no handler is spawned, and an accepted
connection is closed as rejected; a handler is spawned only when
`active_clients < MAX_CLIENTS`, and the counter is one higher afterwards
exactly when a handler was spawned (otherwise it is unchanged). -/
theorem Server.main_iteration_admission (s : Server.ServerState) (client_socket : Int)
    (mallocOk pthreadOk : Bool) :
    (s.active_clients ≥ Server.MAX_CLIENTS →
      (Server.main_iteration s client_socket mallocOk pthreadOk).1 = s ∧
      (∀ c, (Server.main_iteration s client_socket mallocOk pthreadOk).2
        ≠ Server.Accepted.spawned c) ∧
      (0 ≤ client_socket →
        (Server.main_iteration s client_socket mallocOk pthreadOk).2
          = Server.Accepted.rejected client_socket)) ∧
    (∀ c, (Server.main_iteration s client_socket mallocOk pthreadOk).2
        = Server.Accepted.spawned c →
      s.active_clients < Server.MAX_CLIENTS ∧
      (Server.main_iteration s client_socket mallocOk pthreadOk).1.active_clients
        = s.active_clients + 1 ∧
      (Server.main_iteration s client_socket mallocOk pthreadOk).1.in_flight
        = s.in_flight ++ [c]) ∧
    ((¬ ∃ c, (Server.main_iteration s client_socket mallocOk pthreadOk).2
        = Server.Accepted.spawned c) →
      (Server.main_iteration s client_socket mallocOk pthreadOk).1.active_clients
        = s.active_clients ∧
      (Server.main_iteration s client_socket mallocOk pthreadOk).1.in_flight
        = s.in_flight) := by
  unfold Server.main_iteration
  by_cases h0 : client_socket < 0
  · simp [h0]
  · by_cases h1 : s.active_clients ≥ Server.MAX_CLIENTS
    · simp [h0, h1]
    · have h1' : s.active_clients < Server.MAX_CLIENTS := by omega
      cases mallocOk with
      | false => simp [h0, h1]
      | true =>
        cases pthreadOk with
        | false => simp [h0, h1]
        | true =>
          simp [h0, h1, h1']

/-- C7 witness: with ten sessions in flight an accepted connection (socket 14)
is rejected and the state is unchanged. -/
theorem Server.main_iteration_admission_witness :
    (Server.main_iteration demoFull 14 true true).1 = demoFull ∧
    (Server.main_iteration demoFull 14 true true).2 = Server.Accepted.rejected 14 :=
  ⟨((Server.main_iteration_admission demoFull 14 true true).1 (by decide)).1,
    ((Server.main_iteration_admission demoFull 14 true true).1 (by decide)).2.2 (by decide)⟩

/-! ### The active-session counter -/

theorem Server.handle_client_active_clients (active_clients : Int) (fs : FileStore)
    (env : Server.SessionEnv) :
    (Server.handle_client active_clients fs env).active_clients = active_clients - 1 := by
  unfold Server.handle_client
  cases Server.handle_client_body fs env <;> rfl

theorem Server.main_iteration_counts (s : Server.ServerState) (client_socket : Int)
    (mallocOk pthreadOk : Bool)
    (h : s.active_clients = s.in_flight.length ∧ s.active_clients ≤ Server.MAX_CLIENTS) :
    (Server.main_iteration s client_socket mallocOk pthreadOk).1.active_clients
      = (Server.main_iteration s client_socket mallocOk pthreadOk).1.in_flight.length ∧
    (Server.main_iteration s client_socket mallocOk pthreadOk).1.active_clients
      ≤ Server.MAX_CLIENTS := by
  obtain ⟨h1, h2⟩ := h
  unfold Server.main_iteration
  by_cases h0 : client_socket < 0
  · rw [if_pos h0]
    exact ⟨h1, h2⟩
  · rw [if_neg h0]
    by_cases hfull : s.active_clients ≥ Server.MAX_CLIENTS
    · rw [if_pos hfull]
      exact ⟨h1, h2⟩
    · rw [if_neg hfull]
      have hlt : s.active_clients < Server.MAX_CLIENTS := by omega
      cases mallocOk with
      | false => exact ⟨h1, h2⟩
      | true =>
        cases pthreadOk with
        | false =>
          simp only [Bool.not_true, Bool.false_eq_true, if_false, Bool.not_false, if_true]
          constructor <;> omega
        | true =>
          simp only [Bool.not_true, Bool.false_eq_true, if_false, List.length_append,
            List.length_singleton, Nat.cast_add, Nat.cast_one]
          constructor <;> omega

theorem Server.step_counts (s : Server.ServerState) (e : Server.Step)
    (h : s.active_clients = s.in_flight.length ∧ s.active_clients ≤ Server.MAX_CLIENTS) :
    (Server.step s e).active_clients = (Server.step s e).in_flight.length ∧
    (Server.step s e).active_clients ≤ Server.MAX_CLIENTS := by
  cases e with
  | accept client_socket mallocOk pthreadOk =>
    exact Server.main_iteration_counts s client_socket mallocOk pthreadOk h
  | exit i env =>
    unfold Server.step
    by_cases hi : i < s.in_flight.length
    · simp only [hi, if_true, Server.handle_client_active_clients, List.length_eraseIdx]
      obtain ⟨h1, h2⟩ := h
      constructor
      · omega
      · omega
    · simp only [hi, if_false]
      exact h

theorem Server.run_counts (steps : List Server.Step) :
    ∀ s : Server.ServerState,
      (s.active_clients = s.in_flight.length ∧ s.active_clients ≤ Server.MAX_CLIENTS) →
      ((Server.run s steps).active_clients = (Server.run s steps).in_flight.length ∧
        (Server.run s steps).active_clients ≤ Server.MAX_CLIENTS) := by
  induction steps with
  | nil => intro s h; exact h
  | cons e rest ih =>
    intro s h
    have := ih (Server.step s e) (Server.step_counts s e h)
    simpa [Server.run] using this

/-- C8: every exit path of `handle_client` leaves `active_clients` exactly one
lower; an iteration of the accept loop whose `pthread_create` fails leaves
`active_clients` as it was; and in every state reached from the initial state
by atomic accept and handler-exit steps, `active_clients` equals the number of
handler threads in flight and lies between 0 and `MAX_CLIENTS`. -/
theorem Server.active_clients_counts_sessions :
    (∀ (active_clients : Int) (fs : FileStore) (env : Server.SessionEnv),
      (Server.handle_client active_clients fs env).active_clients = active_clients - 1) ∧
    (∀ (s : Server.ServerState) (client_socket : Int) (mallocOk : Bool),
      (Server.main_iteration s client_socket mallocOk false).1.active_clients
        = s.active_clients ∧
      (Server.main_iteration s client_socket mallocOk false).1.in_flight = s.in_flight) ∧
    (∀ (fs : FileStore) (steps : List Server.Step),
      (Server.run (Server.initial fs) steps).active_clients
        = (Server.run (Server.initial fs) steps).in_flight.length ∧
      0 ≤ (Server.run (Server.initial fs) steps).active_clients ∧
      (Server.run (Server.initial fs) steps).active_clients ≤ Server.MAX_CLIENTS) := by
  refine ⟨Server.handle_client_active_clients, ?_, ?_⟩
  · intro s client_socket mallocOk
    unfold Server.main_iteration
    by_cases h0 : client_socket < 0
    · simp [h0]
    · by_cases hfull : s.active_clients ≥ Server.MAX_CLIENTS
      · simp [h0, hfull]
      · cases mallocOk <;> simp [h0, hfull]
  · intro fs steps
    have h := Server.run_counts steps (Server.initial fs)
      ⟨by simp [Server.initial], by simp [Server.initial, Server.MAX_CLIENTS]⟩
    refine ⟨h.1, ?_, h.2⟩
    rw [h.1]
    exact Int.natCast_nonneg _

/-! ### Connection identifiers -/

/-- C9: connections on sockets 4, 5, 6 are admitted in that order, the first
session exiting before the third is accepted. The identifiers handed out are
0, 1, 1: the second and third sessions, both still in flight, carry the same
`client_id`. -/
theorem Server.client_id_reused_after_exit :
    ((Server.run (Server.initial [])
        [Server.Step.accept 4 true true, Server.Step.accept 5 true true,
          Server.Step.exit 0 demoDisconnect, Server.Step.accept 6 true true]).admitted.map
      (fun c => (c.client_socket, c.client_id))) = [(4, 0), (5, 1), (6, 1)] ∧
    ((Server.run (Server.initial [])
        [Server.Step.accept 4 true true, Server.Step.accept 5 true true,
          Server.Step.exit 0 demoDisconnect, Server.Step.accept 6 true true]).in_flight.map
      (fun c => (c.client_socket, c.client_id))) = [(5, 1), (6, 1)] := by
  decide

/-! ### The stored path -/

set_option maxRecDepth 100000 in
/-- C10: for the received filename `../../tmp/x` (11 bytes, containing `/`),
the session of `alice` to `./Manufacturing` reaches the file-open step and
opens `./Manufacturing/../../tmp/x`: the part after the destination directory
contains path separators, so the file is not stored directly inside the
destination directory. For a received filename of 255 bytes the opened path
keeps only its first 239 bytes. -/
theorem Server.target_path_keeps_separators_and_truncates :
    Server.Event.open_file "./Manufacturing/../../tmp/x" true ∈
      (Server.process_file_transfer (demoEnv 0) [] [] "alice" Server.MANUFACTURING_DIR
        "../../tmp/x").trace ∧
    (Server.fs_lookup (Server.process_file_transfer (demoEnv 0) [] [] "alice"
        Server.MANUFACTURING_DIR "../../tmp/x").fs "./Manufacturing/../../tmp/x").isSome
      = true ∧
    '/' ∈ "../../tmp/x".data ∧
    Server.target_path Server.MANUFACTURING_DIR (String.mk (List.replicate 255 'a'))
      = String.mk ("./Manufacturing/".data ++ List.replicate 239 'a') := by
  decide

/-! ### process_file_transfer: the order of events -/

theorem Server.mem_iterations (ns : List Int) (e : Server.Event)
    (h : e ∈ Server.iterations ns) :
    ∃ n ∈ ns, e = Server.Event.recv_data n ∨ e = Server.Event.write_data n := by
  induction ns with
  | nil => simp [Server.iterations] at h
  | cons m ms ih =>
    simp only [Server.iterations, List.mem_cons] at h
    rcases h with h | h | h
    · exact ⟨m, List.mem_cons_self _ _, Or.inl h⟩
    · exact ⟨m, List.mem_cons_self _ _, Or.inr h⟩
    · obtain ⟨n, hn, hh⟩ := ih h
      exact ⟨n, List.mem_cons_of_mem _ hn, hh⟩

theorem Server.receive_loop_trace (path : String) (N : Int) (script : List Server.Recv) :
    ∀ st : Server.LoopState,
      (∀ st1, Server.receive_loop path N script st = Except.ok st1 →
        ∃ ns, (∀ n ∈ ns, 0 < n) ∧ st1.trace = st.trace ++ Server.iterations ns) ∧
      (∀ st1, Server.receive_loop path N script st = Except.error st1 →
        ∃ ns tl, (∀ n ∈ ns, 0 < n) ∧
          st1.trace = st.trace ++ Server.iterations ns ++ tl
            ++ [Server.Event.close_file, Server.Event.unlock] ∧
          ((∃ n, n ≤ 0 ∧ tl = [Server.Event.recv_data n]) ∨
            (∃ b w, Server.Recv.data b w ∈ script ∧ w ≠ (b.length : Int) ∧
              tl = [Server.Event.recv_data (b.length : Int), Server.Event.write_data w]))) := by
  induction script with
  | nil =>
    intro st
    unfold Server.receive_loop
    by_cases h : st.total_received < N
    · rw [if_pos h]
      refine ⟨fun st1 h1 => (by cases h1), fun st1 h1 => ?_⟩
      cases h1
      exact ⟨[], [Server.Event.recv_data 0], by simp, by simp [Server.loop_abort, Server.iterations],
        Or.inl ⟨0, le_refl _, rfl⟩⟩
    · rw [if_neg h]
      refine ⟨fun st1 h1 => ?_, fun st1 h1 => by cases h1⟩
      cases h1
      exact ⟨[], by simp, by simp [Server.iterations]⟩
  | cons r rest ih =>
    intro st
    cases r with
    | error =>
      unfold Server.receive_loop
      by_cases h : st.total_received < N
      · rw [if_pos h]
        refine ⟨fun st1 h1 => (by cases h1), fun st1 h1 => ?_⟩
        cases h1
        exact ⟨[], [Server.Event.recv_data (-1)], by simp,
          by simp [Server.loop_abort, Server.iterations], Or.inl ⟨-1, by decide, rfl⟩⟩
      · rw [if_neg h]
        refine ⟨fun st1 h1 => ?_, fun st1 h1 => by cases h1⟩
        cases h1
        exact ⟨[], by simp, by simp [Server.iterations]⟩
    | data b w =>
      unfold Server.receive_loop
      by_cases h : st.total_received < N
      · rw [if_pos h]
        by_cases hb : (b.length : Int) ≤ 0
        · rw [if_pos hb]
          refine ⟨fun st1 h1 => (by cases h1), fun st1 h1 => ?_⟩
          cases h1
          exact ⟨[], [Server.Event.recv_data (b.length : Int)], by simp,
            by simp [Server.loop_abort, Server.iterations], Or.inl ⟨_, hb, rfl⟩⟩
        · rw [if_neg hb]
          by_cases hw : w = (b.length : Int)
          · subst hw
            rw [if_neg (by simp)]
            obtain ⟨ihok, iherr⟩ := ih
              { fs := Server.fs_write st.fs path (b.take ((b.length : Int)).toNat)
                total_received := st.total_received + (b.length : Int)
                trace := st.trace ++ [Server.Event.recv_data (b.length : Int),
                  Server.Event.write_data (b.length : Int)] }
            constructor
            · intro st1 h1
              obtain ⟨ns, hpos, htr⟩ := ihok st1 h1
              refine ⟨(b.length : Int) :: ns, ?_, ?_⟩
              · intro n hn
                rcases List.mem_cons.1 hn with hn | hn
                · omega
                · exact hpos n hn
              · rw [htr]
                simp [Server.iterations]
            · intro st1 h1
              obtain ⟨ns, tl, hpos, htr, htl⟩ := iherr st1 h1
              refine ⟨(b.length : Int) :: ns, tl, ?_, ?_, ?_⟩
              · intro n hn
                rcases List.mem_cons.1 hn with hn | hn
                · omega
                · exact hpos n hn
              · rw [htr]
                simp [Server.iterations]
              · rcases htl with h0 | ⟨b1, w1, hm, hne, ht⟩
                · exact Or.inl h0
                · exact Or.inr ⟨b1, w1, List.mem_cons_of_mem _ hm, hne, ht⟩
          · rw [if_pos hw]
            refine ⟨fun st1 h1 => (by cases h1), fun st1 h1 => ?_⟩
            cases h1
            exact ⟨[], [Server.Event.recv_data (b.length : Int), Server.Event.write_data w],
              by simp, by simp [Server.loop_abort, Server.iterations],
              Or.inr ⟨b, w, List.mem_cons_self _ _, hw, rfl⟩⟩
      · rw [if_neg h]
        refine ⟨fun st1 h1 => ?_, fun st1 h1 => by cases h1⟩
        cases h1
        exact ⟨[], by simp, by simp [Server.iterations]⟩

theorem Server.process_file_transfer_shape (env : Server.TransferEnv) (fs : FileStore)
    (script : List Server.Recv) (username target_dir filename : String)
    (out : Server.Outcome)
    (hout : out = Server.process_file_transfer env fs script username target_dir filename) :
    (out.status = 1 ∧ out.trace = [Server.Event.dir_checked false]) ∨
    (out.status = 1 ∧
      out.trace = [Server.Event.dir_checked true, Server.Event.access_verified false]) ∨
    (out.status = 3 ∧
      out.trace = [Server.Event.dir_checked true, Server.Event.access_verified true,
        Server.Event.recv_filesize false]) ∨
    (∃ p, out.status = 2 ∧
      out.trace = [Server.Event.dir_checked true, Server.Event.access_verified true,
        Server.Event.recv_filesize true, Server.Event.lock, Server.Event.open_file p false,
        Server.Event.unlock]) ∨
    (∃ p, out.status = 3 ∧
      out.trace = [Server.Event.dir_checked true, Server.Event.access_verified true,
        Server.Event.recv_filesize true, Server.Event.lock, Server.Event.open_file p true,
        Server.Event.send_ready false, Server.Event.close_file, Server.Event.unlock]) ∨
    (∃ p ns tl, out.status = 2 ∧ (∀ n ∈ ns, 0 < n) ∧
      out.trace = [Server.Event.dir_checked true, Server.Event.access_verified true,
        Server.Event.recv_filesize true, Server.Event.lock, Server.Event.open_file p true,
        Server.Event.send_ready true] ++ Server.iterations ns ++ tl
          ++ [Server.Event.close_file, Server.Event.unlock] ∧
      ((∃ n, n ≤ 0 ∧ tl = [Server.Event.recv_data n]) ∨
        (∃ b w, Server.Recv.data b w ∈ script ∧ w ≠ (b.length : Int) ∧
          tl = [Server.Event.recv_data (b.length : Int), Server.Event.write_data w]))) ∨
    (∃ p ns ok, out.status = (if ok = true then 0 else 2) ∧ (∀ n ∈ ns, 0 < n) ∧
      out.trace = [Server.Event.dir_checked true, Server.Event.access_verified true,
        Server.Event.recv_filesize true, Server.Event.lock, Server.Event.open_file p true,
        Server.Event.send_ready true] ++ Server.iterations ns
          ++ [Server.Event.close_file, Server.Event.set_ownership p ok, Server.Event.unlock]) := by
  subst hout
  unfold Server.process_file_transfer
  cases hd : Server.full_target_dir target_dir with
  | none => exact Or.inl ⟨rfl, rfl⟩
  | some full_dir =>
    dsimp only
    by_cases hv : Server.verify_user_access env.db env.mallocOk username target_dir = 0
    · rw [if_pos hv]
      exact Or.inr (Or.inl ⟨rfl, rfl⟩)
    · rw [if_neg hv]
      cases hf : env.filesize with
      | none => exact Or.inr (Or.inr (Or.inl ⟨rfl, rfl⟩))
      | some filesize =>
        dsimp only
        cases ho : env.openOk with
        | false => exact Or.inr (Or.inr (Or.inr (Or.inl ⟨_, rfl, rfl⟩)))
        | true =>
          cases hr : env.sendReadyOk with
          | false => exact Or.inr (Or.inr (Or.inr (Or.inr (Or.inl ⟨_, rfl, rfl⟩))))
          | true =>
            simp only [Bool.not_true, Bool.false_eq_true, if_false]
            obtain ⟨hok, herr⟩ := Server.receive_loop_trace
              (Server.target_path full_dir filename) filesize script
              { fs := Server.fs_open_trunc fs (Server.target_path full_dir filename)
                  env.euid env.egid
                total_received := 0
                trace := [Server.Event.dir_checked true, Server.Event.access_verified true] ++
                  [Server.Event.recv_filesize true, Server.Event.lock] ++
                  [Server.Event.open_file (Server.target_path full_dir filename) true] ++
                  [Server.Event.send_ready true] }
            cases hl : Server.receive_loop (Server.target_path full_dir filename) filesize script
              { fs := Server.fs_open_trunc fs (Server.target_path full_dir filename)
                  env.euid env.egid
                total_received := 0
                trace := [Server.Event.dir_checked true, Server.Event.access_verified true] ++
                  [Server.Event.recv_filesize true, Server.Event.lock] ++
                  [Server.Event.open_file (Server.target_path full_dir filename) true] ++
                  [Server.Event.send_ready true] } with
            | error st1 =>
              obtain ⟨ns, tl, hpos, htr, htl⟩ := herr st1 hl
              refine Or.inr (Or.inr (Or.inr (Or.inr (Or.inr (Or.inl
                ⟨Server.target_path full_dir filename, ns, tl, rfl, hpos, ?_, htl⟩)))))
              simp only [htr]
              simp
            | ok st1 =>
              obtain ⟨ns, hpos, htr⟩ := hok st1 hl
              by_cases hs : (Server.set_file_ownership env.db env.chownOk st1.fs
                (Server.target_path full_dir filename) username).1 ≠ 0
              · refine Or.inr (Or.inr (Or.inr (Or.inr (Or.inr (Or.inr
                  ⟨Server.target_path full_dir filename, ns, false, ?_, hpos, ?_⟩)))))
                · simp [hs, Server.STATUS_FILE_ERROR]
                · simp [hs, htr]
              · refine Or.inr (Or.inr (Or.inr (Or.inr (Or.inr (Or.inr
                  ⟨Server.target_path full_dir filename, ns, true, ?_, hpos, ?_⟩)))))
                · simp [hs, Server.STATUS_SUCCESS]
                · simp [hs, htr]

theorem Server.not_mem_iterations (ns : List Int) (e : Server.Event)
    (h1 : ∀ n, e ≠ Server.Event.recv_data n) (h2 : ∀ n, e ≠ Server.Event.write_data n) :
    e ∉ Server.iterations ns := by
  intro h
  obtain ⟨n, _, hn | hn⟩ := Server.mem_iterations ns e h
  · exact h1 n hn
  · exact h2 n hn

theorem Server.trace_split_after {α : Type} (X R pre post : List α) (s e : α)
    (h : X ++ s :: R = pre ++ e :: post) (heX : e ∉ X) (hes : e ≠ s) :
    ∃ a, pre = X ++ s :: a ∧ R = a ++ e :: post := by
  rcases List.append_eq_append_iff.1 h with ⟨a1, hpre, hb⟩ | ⟨c1, hX, hd⟩
  · cases a1 with
    | nil =>
      simp only [List.nil_append, List.cons.injEq] at hb
      exact absurd hb.1.symm hes
    | cons x a2 =>
      simp only [List.cons_append, List.cons.injEq] at hb
      refine ⟨a2, ?_, hb.2⟩
      rw [hpre, hb.1]
  · cases c1 with
    | nil =>
      simp only [List.nil_append, List.cons.injEq] at hd
      exact absurd hd.1 hes
    | cons y c2 =>
      simp only [List.cons_append, List.cons.injEq] at hd
      exfalso
      apply heX
      rw [hX, hd.1]
      simp

theorem Server.trace_split_between {α : Type} (X M pre post : List α) (l u e : α)
    (h : X ++ l :: (M ++ [u]) = pre ++ e :: post) (heX : e ∉ X) (hel : e ≠ l)
    (heu : e ≠ u) :
    ∃ a c, pre = X ++ l :: a ∧ M = a ++ e :: c ∧ post = c ++ [u] := by
  obtain ⟨a, hpre, hR⟩ := Server.trace_split_after X (M ++ [u]) pre post l e h heX hel
  rcases List.append_eq_append_iff.1 hR with ⟨a1, ha, hb⟩ | ⟨c1, hM, hd⟩
  · cases a1 with
    | nil =>
      simp only [List.nil_append, List.cons.injEq] at hb
      exact absurd hb.1.symm heu
    | cons x a2 =>
      simp at hb
  · cases c1 with
    | nil =>
      simp only [List.nil_append, List.cons.injEq] at hd
      exact absurd hd.1 heu
    | cons y c2 =>
      simp only [List.cons_append, List.cons.injEq] at hd
      exact ⟨a, c2, hpre, by rw [hM, hd.1], hd.2⟩

theorem Server.process_file_transfer_ready_shape (env : Server.TransferEnv) (fs : FileStore)
    (script : List Server.Recv) (username target_dir filename : String) :
    ((∀ ok, Server.Event.send_ready ok ∉
        (Server.process_file_transfer env fs script username target_dir filename).trace) ∧
      (∀ n, Server.Event.recv_data n ∉
        (Server.process_file_transfer env fs script username target_dir filename).trace)) ∨
    (∃ p ok R,
      (Server.process_file_transfer env fs script username target_dir filename).trace
        = [Server.Event.dir_checked true, Server.Event.access_verified true,
            Server.Event.recv_filesize true, Server.Event.lock, Server.Event.open_file p true]
          ++ Server.Event.send_ready ok :: R ∧
      (∀ ok1, Server.Event.send_ready ok1 ∉ R) ∧
      (ok = false → ∀ n, Server.Event.recv_data n ∉ R)) := by
  rcases Server.process_file_transfer_shape env fs script username target_dir filename _ rfl with
    ⟨_, h⟩ | ⟨_, h⟩ | ⟨_, h⟩ | ⟨p, _, h⟩ | ⟨p, _, h⟩ | ⟨p, ns, tl, _, _, h, htl⟩ |
    ⟨p, ns, ok, _, _, h⟩
  · left; rw [h]; simp
  · left; rw [h]; simp
  · left; rw [h]; simp
  · left; rw [h]; simp
  · right
    refine ⟨p, false, [Server.Event.close_file, Server.Event.unlock], ?_, ?_, ?_⟩
    · rw [h]; rfl
    · simp
    · simp
  · right
    refine ⟨p, true, Server.iterations ns ++ tl ++ [Server.Event.close_file, Server.Event.unlock],
      ?_, ?_, ?_⟩
    · rw [h]; simp
    · intro ok1 hmem
      simp only [List.mem_append, List.mem_cons, List.mem_singleton] at hmem
      rcases hmem with (hmem | hmem) | hmem
      · exact Server.not_mem_iterations ns _ (by simp) (by simp) hmem
      · rcases htl with ⟨n, _, rfl⟩ | ⟨b, w, _, _, rfl⟩ <;> simp at hmem
      · simp at hmem
    · intro hf; cases hf
  · right
    refine ⟨p, true, Server.iterations ns ++
      [Server.Event.close_file, Server.Event.set_ownership p ok, Server.Event.unlock], ?_, ?_, ?_⟩
    · rw [h]; simp
    · intro ok1 hmem
      simp only [List.mem_append, List.mem_cons, List.mem_singleton] at hmem
      rcases hmem with hmem | hmem
      · exact Server.not_mem_iterations ns _ (by simp) (by simp) hmem
      · simp at hmem
    · intro hf; cases hf

theorem Server.send_ready_requires (env : Server.TransferEnv) (fs : FileStore)
    (script : List Server.Recv) (username target_dir filename : String) (ok : Bool)
    (h : Server.Event.send_ready ok ∈
      (Server.process_file_transfer env fs script username target_dir filename).trace) :
    Server.full_target_dir target_dir ≠ none ∧
    Server.verify_user_access env.db env.mallocOk username target_dir ≠ 0 ∧
    env.filesize ≠ none ∧ env.openOk = true := by
  unfold Server.process_file_transfer at h
  cases hd : Server.full_target_dir target_dir with
  | none => simp [hd] at h
  | some full_dir =>
    simp only [hd] at h
    by_cases hv : Server.verify_user_access env.db env.mallocOk username target_dir = 0
    · simp [hv] at h
    · simp only [hv, if_false] at h
      cases hf : env.filesize with
      | none => simp [hf] at h
      | some filesize =>
        cases ho : env.openOk with
        | false => simp [hf, ho] at h
        | true => exact ⟨by simp, hv, by simp, rfl⟩

/-- C11: in every execution of `process_file_transfer` the trace holds at most
one send of the ready signal; wherever such a send occurs, the events before
it include the destination being recognised, `verify_user_access` returning
authorized and the successful open of the destination file (and indeed the
destination is one of the two literals, `verify_user_access` is non-zero and
`open` succeeded); and every payload read is preceded by a successful send of
the ready signal. -/
theorem Server.ready_signal_once_after_open (env : Server.TransferEnv) (fs : FileStore)
    (script : List Server.Recv) (username target_dir filename : String) :
    ((Server.process_file_transfer env fs script username target_dir filename).trace.count
        (Server.Event.send_ready true) +
      (Server.process_file_transfer env fs script username target_dir filename).trace.count
        (Server.Event.send_ready false) ≤ 1) ∧
    (∀ pre post ok,
      (Server.process_file_transfer env fs script username target_dir filename).trace
        = pre ++ Server.Event.send_ready ok :: post →
      Server.Event.dir_checked true ∈ pre ∧ Server.Event.access_verified true ∈ pre ∧
      (∃ p, Server.Event.open_file p true ∈ pre) ∧
      Server.full_target_dir target_dir ≠ none ∧
      Server.verify_user_access env.db env.mallocOk username target_dir ≠ 0 ∧
      env.openOk = true) ∧
    (∀ pre post n,
      (Server.process_file_transfer env fs script username target_dir filename).trace
        = pre ++ Server.Event.recv_data n :: post →
      Server.Event.send_ready true ∈ pre) := by
  rcases Server.process_file_transfer_ready_shape env fs script username target_dir filename with
    ⟨hns, hnr⟩ | ⟨p, ok0, R, hT, hR, hRr⟩
  · refine ⟨?_, ?_, ?_⟩
    · rw [List.count_eq_zero_of_not_mem (hns true), List.count_eq_zero_of_not_mem (hns false)]
      decide
    · intro pre post ok h
      exact absurd (by rw [h]; simp) (hns ok)
    · intro pre post n h
      exact absurd (by rw [h]; simp) (hnr n)
  · refine ⟨?_, ?_, ?_⟩
    · rw [hT]
      simp only [List.count_append, List.count_cons,
        List.count_eq_zero_of_not_mem (hR true), List.count_eq_zero_of_not_mem (hR false)]
      cases ok0 <;> simp
    · intro pre post ok h
      have hreq := Server.send_ready_requires env fs script username target_dir filename ok
        (by rw [h]; simp)
      rw [hT] at h
      have hinj := (List.append_cons_inj_of_not_mem (by simp) (hR ok)).1 h
      rw [← hinj.1]
      exact ⟨by simp, by simp, ⟨p, by simp⟩, hreq.1, hreq.2.1, hreq.2.2.2⟩
    · intro pre post n h
      rw [hT] at h
      obtain ⟨a, hpre, hRa⟩ := Server.trace_split_after _ R pre post _ _ h (by simp) (by simp)
      cases ok0 with
      | true => rw [hpre]; simp
      | false => exact absurd (by rw [hRa]; simp) (hRr rfl n)

/-- C11 witness: `alice` sends 12 bytes to `./Manufacturing`; the single
payload read comes after the ready signal. -/
theorem Server.ready_signal_once_after_open_witness :
    (Server.process_file_transfer (demoEnv 12) []
        [Server.Recv.data [104, 101, 108, 108, 111, 32, 119, 111, 114, 108, 100, 10] 12]
        "alice" Server.MANUFACTURING_DIR "report.txt").trace
      = [Server.Event.dir_checked true, Server.Event.access_verified true,
          Server.Event.recv_filesize true, Server.Event.lock,
          Server.Event.open_file "./Manufacturing/report.txt" true,
          Server.Event.send_ready true]
        ++ Server.Event.recv_data 12 ::
          [Server.Event.write_data 12, Server.Event.close_file,
            Server.Event.set_ownership "./Manufacturing/report.txt" true, Server.Event.unlock] ∧
    Server.Event.send_ready true ∈
      [Server.Event.dir_checked true, Server.Event.access_verified true,
        Server.Event.recv_filesize true, Server.Event.lock,
        Server.Event.open_file "./Manufacturing/report.txt" true,
        Server.Event.send_ready true] :=
  ⟨by decide,
    (Server.ready_signal_once_after_open (demoEnv 12) []
      [Server.Recv.data [104, 101, 108, 108, 111, 32, 119, 111, 114, 108, 100, 10] 12]
      "alice" Server.MANUFACTURING_DIR "report.txt").2.2
      [Server.Event.dir_checked true, Server.Event.access_verified true,
        Server.Event.recv_filesize true, Server.Event.lock,
        Server.Event.open_file "./Manufacturing/report.txt" true,
        Server.Event.send_ready true]
      [Server.Event.write_data 12, Server.Event.close_file,
        Server.Event.set_ownership "./Manufacturing/report.txt" true, Server.Event.unlock]
      12 (by decide)⟩

/-! ### process_file_transfer: the returned status -/

theorem Server.process_file_transfer_lock_shape (env : Server.TransferEnv) (fs : FileStore)
    (script : List Server.Recv) (username target_dir filename : String) :
    (Server.Event.lock ∉
        (Server.process_file_transfer env fs script username target_dir filename).trace ∧
      Server.Event.unlock ∉
        (Server.process_file_transfer env fs script username target_dir filename).trace ∧
      (∀ e ∈ (Server.process_file_transfer env fs script username target_dir filename).trace,
        (∃ ok, e = Server.Event.dir_checked ok) ∨ (∃ ok, e = Server.Event.access_verified ok) ∨
        (∃ ok, e = Server.Event.recv_filesize ok))) ∨
    (∃ M,
      (Server.process_file_transfer env fs script username target_dir filename).trace
        = [Server.Event.dir_checked true, Server.Event.access_verified true,
            Server.Event.recv_filesize true]
          ++ Server.Event.lock :: (M ++ [Server.Event.unlock]) ∧
      Server.Event.lock ∉ M ∧ Server.Event.unlock ∉ M) := by
  rcases Server.process_file_transfer_shape env fs script username target_dir filename _ rfl with
    ⟨_, h⟩ | ⟨_, h⟩ | ⟨_, h⟩ | ⟨p, _, h⟩ | ⟨p, _, h⟩ | ⟨p, ns, tl, _, _, h, htl⟩ |
    ⟨p, ns, ok, _, _, h⟩
  · left; rw [h]; simp
  · left; rw [h]; simp
  · left; rw [h]; simp
  · right
    exact ⟨[Server.Event.open_file p false], by rw [h]; rfl, by simp, by simp⟩
  · right
    exact ⟨[Server.Event.open_file p true, Server.Event.send_ready false,
      Server.Event.close_file], by rw [h]; rfl, by simp, by simp⟩
  · right
    refine ⟨[Server.Event.open_file p true, Server.Event.send_ready true]
      ++ Server.iterations ns ++ tl ++ [Server.Event.close_file], by rw [h]; simp, ?_, ?_⟩
    · intro hmem
      simp only [List.mem_append, List.mem_cons, List.mem_singleton] at hmem
      rcases hmem with ((hmem | hmem) | hmem) | hmem
      · simp at hmem
      · exact Server.not_mem_iterations ns _ (by simp) (by simp) hmem
      · rcases htl with ⟨n, _, rfl⟩ | ⟨b, w, _, _, rfl⟩ <;> simp at hmem
      · simp at hmem
    · intro hmem
      simp only [List.mem_append, List.mem_cons, List.mem_singleton] at hmem
      rcases hmem with ((hmem | hmem) | hmem) | hmem
      · simp at hmem
      · exact Server.not_mem_iterations ns _ (by simp) (by simp) hmem
      · rcases htl with ⟨n, _, rfl⟩ | ⟨b, w, _, _, rfl⟩ <;> simp at hmem
      · simp at hmem
  · right
    refine ⟨[Server.Event.open_file p true, Server.Event.send_ready true]
      ++ Server.iterations ns ++ [Server.Event.close_file, Server.Event.set_ownership p ok],
      by rw [h]; simp, ?_, ?_⟩
    · intro hmem
      simp only [List.mem_append, List.mem_cons, List.mem_singleton] at hmem
      rcases hmem with (hmem | hmem) | hmem
      · simp at hmem
      · exact Server.not_mem_iterations ns _ (by simp) (by simp) hmem
      · simp at hmem
    · intro hmem
      simp only [List.mem_append, List.mem_cons, List.mem_singleton] at hmem
      rcases hmem with (hmem | hmem) | hmem
      · simp at hmem
      · exact Server.not_mem_iterations ns _ (by simp) (by simp) hmem
      · simp at hmem

/-- C13: in every execution of `process_file_transfer` (every return path),
`file_mutex` is locked at most once and unlocked exactly as often as it is
locked; an unlock has the lock before it and is the last event before the
return, so the lock is not held on return; a lock has no unlock before it and
one after it; and every open, payload write, close and ownership assignment
lies after the lock and before the unlock. -/
theorem Server.file_mutex_released_on_return (env : Server.TransferEnv) (fs : FileStore)
    (script : List Server.Recv) (username target_dir filename : String) :
    ((Server.process_file_transfer env fs script username target_dir filename).trace.count
        Server.Event.lock ≤ 1) ∧
    ((Server.process_file_transfer env fs script username target_dir filename).trace.count
        Server.Event.unlock =
      (Server.process_file_transfer env fs script username target_dir filename).trace.count
        Server.Event.lock) ∧
    (∀ pre post,
      (Server.process_file_transfer env fs script username target_dir filename).trace
        = pre ++ Server.Event.unlock :: post →
      Server.Event.lock ∈ pre ∧ post = []) ∧
    (∀ pre post,
      (Server.process_file_transfer env fs script username target_dir filename).trace
        = pre ++ Server.Event.lock :: post →
      Server.Event.unlock ∉ pre ∧ Server.Event.unlock ∈ post) ∧
    (∀ pre e post,
      (Server.process_file_transfer env fs script username target_dir filename).trace
        = pre ++ e :: post →
      ((∃ p ok, e = Server.Event.open_file p ok) ∨ (∃ n, e = Server.Event.write_data n) ∨
        e = Server.Event.close_file ∨ (∃ p ok, e = Server.Event.set_ownership p ok)) →
      Server.Event.lock ∈ pre ∧ Server.Event.unlock ∉ pre ∧ Server.Event.unlock ∈ post) := by
  rcases Server.process_file_transfer_lock_shape env fs script username target_dir filename with
    ⟨hl, hu, hall⟩ | ⟨M, hT, hlM, huM⟩
  · refine ⟨?_, ?_, ?_, ?_, ?_⟩
    · rw [List.count_eq_zero_of_not_mem hl]
      decide
    · rw [List.count_eq_zero_of_not_mem hl, List.count_eq_zero_of_not_mem hu]
    · intro pre post h
      exact absurd (by rw [h]; simp) hu
    · intro pre post h
      exact absurd (by rw [h]; simp) hl
    · intro pre e post h he
      have hm := hall e (by rw [h]; simp)
      rcases he with ⟨p, ok, rfl⟩ | ⟨n, rfl⟩ | rfl | ⟨p, ok, rfl⟩ <;> simp at hm
  · have huX : Server.Event.unlock ∉ [Server.Event.dir_checked true,
        Server.Event.access_verified true, Server.Event.recv_filesize true] := by simp
    have hlX : Server.Event.lock ∉ [Server.Event.dir_checked true,
        Server.Event.access_verified true, Server.Event.recv_filesize true] := by simp
    refine ⟨?_, ?_, ?_, ?_, ?_⟩
    · rw [hT]
      simp only [List.count_append, List.count_cons, List.count_nil,
        List.count_eq_zero_of_not_mem hlM]
      decide
    · rw [hT]
      simp only [List.count_append, List.count_cons, List.count_nil,
        List.count_eq_zero_of_not_mem hlM, List.count_eq_zero_of_not_mem huM]
      decide
    · intro pre post h
      rw [hT] at h
      have h2 : ([Server.Event.dir_checked true, Server.Event.access_verified true,
          Server.Event.recv_filesize true] ++ Server.Event.lock :: M)
          ++ Server.Event.unlock :: [] = pre ++ Server.Event.unlock :: post := by
        rw [← h]
        simp
      have hinj := (List.append_cons_inj_of_not_mem
        (by simp [huM]) (by simp)).1 h2
      refine ⟨?_, hinj.2.2.symm⟩
      rw [← hinj.1]
      simp
    · intro pre post h
      rw [hT] at h
      have hinj := (List.append_cons_inj_of_not_mem hlX (by simp [hlM])).1 h
      rw [← hinj.1, ← hinj.2.2]
      exact ⟨huX, by simp⟩
    · intro pre e post h he
      rw [hT] at h
      have heX : e ∉ [Server.Event.dir_checked true, Server.Event.access_verified true,
          Server.Event.recv_filesize true] := by
        rcases he with ⟨p, ok, rfl⟩ | ⟨n, rfl⟩ | rfl | ⟨p, ok, rfl⟩ <;> simp
      have hel : e ≠ Server.Event.lock := by
        rcases he with ⟨p, ok, rfl⟩ | ⟨n, rfl⟩ | rfl | ⟨p, ok, rfl⟩ <;> simp
      have heu : e ≠ Server.Event.unlock := by
        rcases he with ⟨p, ok, rfl⟩ | ⟨n, rfl⟩ | rfl | ⟨p, ok, rfl⟩ <;> simp
      obtain ⟨a, c, hpre, hM, hpost⟩ :=
        Server.trace_split_between _ M pre post _ _ e h heX hel heu
      refine ⟨by rw [hpre]; simp, ?_, by rw [hpost]; simp⟩
      rw [hpre]
      intro hmem
      simp only [List.mem_append, List.mem_cons, List.mem_singleton] at hmem
      rcases hmem with hmem | hmem | hmem
      · simp at hmem
      · cases hmem
      · exact huM (by rw [hM]; simp [hmem])

/-- C13 witness: in the 12-byte transfer of `alice` the payload write lies
after the lock and before the unlock. -/
theorem Server.file_mutex_released_on_return_witness :
    (Server.process_file_transfer (demoEnv 12) []
        [Server.Recv.data [104, 101, 108, 108, 111, 32, 119, 111, 114, 108, 100, 10] 12]
        "alice" Server.MANUFACTURING_DIR "report.txt").trace
      = [Server.Event.dir_checked true, Server.Event.access_verified true,
          Server.Event.recv_filesize true, Server.Event.lock,
          Server.Event.open_file "./Manufacturing/report.txt" true,
          Server.Event.send_ready true, Server.Event.recv_data 12]
        ++ Server.Event.write_data 12 ::
          [Server.Event.close_file,
            Server.Event.set_ownership "./Manufacturing/report.txt" true, Server.Event.unlock] ∧
    Server.Event.lock ∈
      [Server.Event.dir_checked true, Server.Event.access_verified true,
        Server.Event.recv_filesize true, Server.Event.lock,
        Server.Event.open_file "./Manufacturing/report.txt" true,
        Server.Event.send_ready true, Server.Event.recv_data 12] ∧
    Server.Event.unlock ∉
      [Server.Event.dir_checked true, Server.Event.access_verified true,
        Server.Event.recv_filesize true, Server.Event.lock,
        Server.Event.open_file "./Manufacturing/report.txt" true,
        Server.Event.send_ready true, Server.Event.recv_data 12] ∧
    Server.Event.unlock ∈
      [Server.Event.close_file,
        Server.Event.set_ownership "./Manufacturing/report.txt" true, Server.Event.unlock] :=
  ⟨by decide,
    (Server.file_mutex_released_on_return (demoEnv 12) []
      [Server.Recv.data [104, 101, 108, 108, 111, 32, 119, 111, 114, 108, 100, 10] 12]
      "alice" Server.MANUFACTURING_DIR "report.txt").2.2.2.2
      [Server.Event.dir_checked true, Server.Event.access_verified true,
        Server.Event.recv_filesize true, Server.Event.lock,
        Server.Event.open_file "./Manufacturing/report.txt" true,
        Server.Event.send_ready true, Server.Event.recv_data 12]
      (Server.Event.write_data 12)
      [Server.Event.close_file,
        Server.Event.set_ownership "./Manufacturing/report.txt" true, Server.Event.unlock]
      (by decide) (Or.inr (Or.inl ⟨12, rfl⟩))⟩

/-! ### process_file_transfer: the causes of each status, on the inputs -/

